import Mathlib

/-!
Verification of the PowderDispenser host-side controller
(`PowderDispenserController/controller.py`) against its natural-language
specification.

The controller is shallowly embedded: the wire commands issued over the
serial link become an inductive `Cmd`, the controller's mutable fields
(`isScaleOn`, `isStepperOn`, the log, the elapsed `time.sleep` budget and
the sequence of issued commands) become an explicit state record `St`,
and each Python method becomes a Lean function on `St`.  Scale feedback
(`measWeight`) is modelled by an oracle `ℕ → ℚ` giving the value returned
by the i-th weight measurement; `while` loops become fuel-indexed
recursions returning `none` when the fuel is exhausted (i.e. the loop has
not terminated within that many iterations).  Machine floats are modelled
by `ℚ`.
-/

namespace PowderDispenser

/-- A wire command, as issued by `run_command` over the serial link.
Mirrors the literal f-strings in controller.py: `<Dispense,steps,dir>`,
`<DispenserOn>`, `<DispenserOff>`, `<ScaleOn>`, `<ScaleOff>`, `<Tare>`,
`<ADC,samples,filter>`, `<Meas,samples,filter>`, `<Mix,t>`, `<Drain,t>`,
`<Pump,pin,t>`. -/
inductive Cmd where
  | dispense (steps : ℚ) (dir : String)
  | dispenserOn
  | dispenserOff
  | scaleOn
  | scaleOff
  | tare
  | adc (samples : ℕ) (filt : String)
  | meas (samples : ℕ) (filt : String)
  | mix (t : ℚ)
  | drain (t : ℚ)
  | pump (pin : ℕ) (t : ℚ)
deriving DecidableEq, Repr

/-- Controller state: the two power booleans tracked on `self`
(`isScaleOn`, `isStepperOn`), the sequence of wire commands issued so
far, the total time spent in `time.sleep`, the index of the next scale
reading to consume from the measurement oracle, and the rows appended to
the log sink (desired amount, measured amount). -/
structure St where
  isScaleOn : Bool
  isStepperOn : Bool
  cmds : List Cmd
  slept : ℚ
  measIdx : ℕ
  log : List (ℚ × ℚ)
deriving DecidableEq, Repr

/-- The state right after `__init__` returns: `disableStepper()` and
`scaleOff()` have been called, so both power booleans are `false`.  The
command list is taken as the baseline (empty). -/
def initSt : St :=
  { isScaleOn := false, isStepperOn := false, cmds := [], slept := 0,
    measIdx := 0, log := [] }

/-- `run_command`: sends one framed command over the serial link
(controller.py line 132).  In the model it appends the command to the
trace. -/
def run_command (c : Cmd) (σ : St) : St :=
  { σ with cmds := σ.cmds ++ [c] }

/-- `time.sleep t`. -/
def sleep (t : ℚ) (σ : St) : St :=
  { σ with slept := σ.slept + t }

/-- `enableStepper` (line 281): issues `<DispenserOn>` only when
`isStepperOn == False`, then sets the boolean. -/
def enableStepper (σ : St) : St :=
  if σ.isStepperOn = false then
    { run_command Cmd.dispenserOn σ with isStepperOn := true }
  else σ

/-- `disableStepper` (line 289): issues `<DispenserOff>` only when
`isStepperOn == True`. -/
def disableStepper (σ : St) : St :=
  if σ.isStepperOn = true then
    { run_command Cmd.dispenserOff σ with isStepperOn := false }
  else σ

/-- `scaleOn(settle_time=5)` (line 330): issues `<ScaleOn>` only when
`isScaleOn == False`, sets the boolean, then sleeps `settle_time`. -/
def scaleOn (settle : ℚ) (σ : St) : St :=
  if σ.isScaleOn = false then
    sleep settle { run_command Cmd.scaleOn σ with isScaleOn := true }
  else σ

/-- `scaleOff` (line 343): issues `<ScaleOff>` only when
`isScaleOn == True`. -/
def scaleOff (σ : St) : St :=
  if σ.isScaleOn = true then
    { run_command Cmd.scaleOff σ with isScaleOn := false }
  else σ

/-- `tare` (line 352): unconditionally issues `<Tare>`. -/
def tare (σ : St) : St :=
  run_command Cmd.tare σ

/-- `measWeight(avgReadingSamples=100, filterType)` (line 314): issues
`<Meas,100,filter>` and returns the weight decoded from the reply, here
supplied by the oracle at the current measurement index. -/
def measWeight (oracle : ℕ → ℚ) (filt : String) (σ : St) : ℚ × St :=
  let σ' := run_command (Cmd.meas 100 filt) σ
  (oracle σ'.measIdx, { σ' with measIdx := σ'.measIdx + 1 })

/-- `dispense(amount_or_steps, direction, runSteps, ...)` (line 255):
with `runSteps=True` the argument is the step count; with
`runSteps=False` the needed steps are `amount / augCalFactor` where
`cal` is the configured grams-per-step factor for the resolved
auger/powder pair (line 276).  Issues `<Dispense,steps,dir>`. -/
def dispense (cal : ℚ) (amount_or_steps : ℚ) (dir : String)
    (runSteps : Bool) (σ : St) : St :=
  let neededSteps := if runSteps then amount_or_steps else amount_or_steps / cal
  run_command (Cmd.dispense neededSteps dir) σ

/-- Appends one row to the log sink (`write_to_logfile`); the dispense
loop passes `desired_amount = current_amount, measured_amount =
current_amount`. -/
def logRow (row : ℚ × ℚ) (σ : St) : St :=
  { σ with log := σ.log ++ [row] }

/-- One stage of `dispense_powder_seq` (controller.py lines 585-623):
`while current_amount < th: dispense(burst, runSteps=True); sleep(1);
current_amount = measWeight(); write_to_logfile(...)`.  `fuel` bounds the
number of iterations the model unrolls; `none` means the loop has not
exited within `fuel` iterations.  (`cal` is threaded through because
`dispense` takes the calibration factor; with `runSteps=True` it is not
consulted.) -/
def fillLoop (cal : ℚ) (dir filt : String) (oracle : ℕ → ℚ) (th burst : ℚ) :
    ℕ → ℚ → St → Option (ℚ × St)
  | 0, c, σ => if c < th then none else some (c, σ)
  | fuel + 1, c, σ =>
    if c < th then
      let σ := dispense cal burst dir true σ
      let σ := sleep 1 σ
      let (c', σ) := measWeight oracle filt σ
      let σ := logRow (c', c') σ
      fillLoop cal dir filt oracle th burst fuel c' σ
    else some (c, σ)

/-- The priming prefix of `dispense_powder_seq` (lines 553-569): scale
on, settle, double tare, two weight readings, stepper on, then the
initial lump `desired_amount * 0.50` dispensed with `runSteps=False`
(steps computed by dividing the mass by the calibration factor).
Returns the last reading together with the state. -/
def primedPair (cal : ℚ) (dir filt : String) (oracle : ℕ → ℚ)
    (desired : ℚ) (σ : St) : ℚ × St :=
  let σ := scaleOn 5 σ
  let σ := sleep 1 σ
  let σ := tare σ
  let σ := sleep 1 σ
  let σ := tare σ
  let σ := sleep 1 σ
  let (_, σ) := measWeight oracle filt σ
  let σ := sleep 1 σ
  let (c, σ) := measWeight oracle filt σ
  let σ := sleep 1 σ
  let σ := enableStepper σ
  let σ := sleep 1 σ
  let σ := dispense cal (desired * (50 / 100)) dir false σ
  let σ := sleep 1 σ
  (c, σ)

/-- `dispense_powder_seq(desired_amount)` (lines 544-634): priming, then
three burst loops — 400-step bursts while below `desired * 0.80`,
20-step bursts while below `desired * 0.97`, and 5-step bursts while
below `desired * 99` (the literal constant in line 611 is `99`, not
`0.99`) — then `disableStepper()` and a final log row.  No `scaleOff`
occurs in this method. -/
def dispense_powder_seq (cal : ℚ) (dir filt : String) (oracle : ℕ → ℚ)
    (desired : ℚ) (fuel : ℕ) (σ : St) : Option (ℚ × St) :=
  let p := primedPair cal dir filt oracle desired σ
  match fillLoop cal dir filt oracle (desired * (80 / 100)) 400 fuel p.1 p.2 with
  | none => none
  | some (c, σ) =>
    match fillLoop cal dir filt oracle (desired * (97 / 100)) 20 fuel c σ with
    | none => none
    | some (c, σ) =>
      match fillLoop cal dir filt oracle (desired * 99) 5 fuel c σ with
      | none => none
      | some (c, σ) =>
        let σ := disableStepper σ
        let σ := logRow (c, c) σ
        some (c, σ)

/-- The loop of `purge_dispenser` (lines 428-431):
`while weight <= weight + 0.08: dispense(200, runSteps=True); sleep(3);
weight = measWeight()`. -/
def purgeLoop (cal : ℚ) (dir filt : String) (oracle : ℕ → ℚ) :
    ℕ → ℚ → St → Option St
  | 0, w, σ => if w ≤ w + 8 / 100 then none else some σ
  | fuel + 1, w, σ =>
    if w ≤ w + 8 / 100 then
      let σ := dispense cal 200 dir true σ
      let σ := sleep 3 σ
      let (w', σ) := measWeight oracle filt σ
      purgeLoop cal dir filt oracle fuel w' σ
    else some σ

/-- `purge_dispenser()` (lines 416-433): stepper on, scale on, sleep 2,
tare, one reading, the purge loop, then `scaleOff(); disableStepper()`. -/
def purge_dispenser (cal : ℚ) (dir filt : String) (oracle : ℕ → ℚ)
    (fuel : ℕ) (σ : St) : Option St :=
  let σ := enableStepper σ
  let σ := scaleOn 5 σ
  let σ := sleep 2 σ
  let σ := tare σ
  let p := measWeight oracle filt σ
  (purgeLoop cal dir filt oracle fuel p.1 p.2).map
    (fun σ => disableStepper (scaleOff σ))

/-- A run of `n` iterations of a fill stage, as seen on the wire: each
iteration dispenses a fixed burst and then requests one weight
measurement. -/
def stageBlock (burst : ℚ) (dir filt : String) : ℕ → List Cmd
  | 0 => []
  | n + 1 => [Cmd.dispense burst dir, Cmd.meas 100 filt] ++ stageBlock burst dir filt n

/-- Final state of the concrete run `dispense_powder_seq` with target
1 g, calibration factor 1, and a scale stuck at 100 g (all three fill
loops exit immediately). -/
def c4FinalSt : St :=
  { isScaleOn := true, isStepperOn := false,
    cmds := [Cmd.scaleOn, Cmd.tare, Cmd.tare, Cmd.meas 100 "EWMA",
             Cmd.meas 100 "EWMA", Cmd.dispenserOn,
             Cmd.dispense (1 / 2) "out", Cmd.dispenserOff],
    slept := 12, measIdx := 2, log := [(100, 100)] }

/-- Final state of the concrete run `dispense_powder_seq` with target
10 g, calibration factor 1, and a scale reading a constant 1000 g. -/
def c5FinalSt : St :=
  { isScaleOn := true, isStepperOn := false,
    cmds := [Cmd.scaleOn, Cmd.tare, Cmd.tare, Cmd.meas 100 "EWMA",
             Cmd.meas 100 "EWMA", Cmd.dispenserOn,
             Cmd.dispense 5 "out", Cmd.dispenserOff],
    slept := 12, measIdx := 2, log := [(1000, 1000)] }

/-- Model of Python `str.split(sep)` for a one-character separator:
`pySplit sep "" = [""]`, and separators delimit (possibly empty)
fields. -/
def pySplit (sep : Char) : List Char → List (List Char)
  | [] => [[]]
  | c :: rest =>
    if c = sep then [] :: pySplit sep rest
    else
      match pySplit sep rest with
      | f :: fs => (c :: f) :: fs
      | [] => [[c]]

/-- Joins fields with a separator; left inverse of `pySplit` on
separator-free fields. -/
def joinSep (sep : Char) : List (List Char) → List Char
  | [] => []
  | [f] => f
  | f :: fs => f ++ sep :: joinSep sep fs

/-- The frame encoder: every command is rendered as the ASCII frame
`<Name,p1,...,pn>` (the f-strings passed to `run_command`, e.g.
`<Dispense,{neededSteps},{direction}>` in controller.py line 279). -/
def encodeFrame (name : List Char) (params : List (List Char)) : List Char :=
  '<' :: (joinSep ',' (name :: params) ++ ['>'])

/-- The accumulate-until-end-marker loop of `recv_from_arduino`
(lines 105-109): bytes are appended until the end marker `>` appears;
any further start marker `<` is skipped, not accumulated. -/
def accumFrame : List Char → List Char → Option (List Char)
  | [], _ => none
  | c :: rest, acc =>
    if c = '>' then some acc
    else if c = '<' then accumFrame rest acc
    else accumFrame rest (acc ++ [c])

/-- The frame decoder of `recv_from_arduino` (lines 102-110): discard
bytes until a start marker `<` is seen, then accumulate until the end
marker `>`; `none` when no complete frame is present. -/
def decodeFrame : List Char → Option (List Char)
  | [] => none
  | c :: rest => if c = '<' then accumFrame rest [] else decodeFrame rest

/-- Decodes a frame and splits its body at commas into the command name
and the parameter list. -/
def decodeParse (s : List Char) : Option (List Char × List (List Char)) :=
  (decodeFrame s).map fun body =>
    match pySplit ',' body with
    | n :: ps => (n, ps)
    | [] => ([], [])

/-- A field containing neither frame delimiter byte (`<` = 60,
`>` = 62). -/
def noDelim (f : List Char) : Bool :=
  f.all fun c => c != '<' && c != '>'

/-- A field containing no frame delimiter and no comma (the field
separator). -/
def cleanField (f : List Char) : Bool :=
  f.all fun c => c != '<' && c != '>' && c != ','

/-- The start-marker scan of `recv_from_arduino` (lines 103-104):
`while ord(x) != start_marker: x = self.ser.read()`.  `ser.read()` is a
blocking read with no deadline, so the scan is bounded only by the
number of bytes the model is allowed to consume (`fuel`); `none` means
the code is still blocked inside `ser.read()` after `fuel` reads.
Returns the stream index just past the first start-marker byte (60). -/
def scanStart (stream : ℕ → ℕ) : ℕ → ℕ → Option ℕ
  | _, 0 => none
  | i, fuel + 1 =>
    if stream i = 60 then some (i + 1) else scanStart stream (i + 1) fuel

/-- The body-accumulation loop of `recv_from_arduino` (lines 105-109):
`while ord(x) != end_marker: if ord(x) != start_marker: ck += x;
x = self.ser.read()`.  Entered with `x` = the start marker just
consumed. -/
def accumBytes (stream : ℕ → ℕ) : ℕ → ℕ → List ℕ → ℕ → Option (List ℕ)
  | _, x, acc, 0 => if x = 62 then some acc else none
  | i, x, acc, fuel + 1 =>
    if x = 62 then some acc
    else accumBytes stream (i + 1) (stream i)
      (if x = 60 then acc else acc ++ [x]) fuel

/-- `recv_from_arduino(timeout=None)` (lines 82-111).  Line 95 is the
literal `timeout = 10` (the commented-out remainder of the line shows
the intended `timeout or self.DEFAULT_timeout`), so the caller's
argument is discarded.  `elapsed0` is the time elapsed when the outer
`while time.time() - start_time < timeout` guard is evaluated; the loop
body unconditionally `return`s when it completes, so the guard is
evaluated exactly once and `raise TimeoutError` (line 111, modelled as
`Except.error ()`) is reachable only if the very first guard check
fails.  `none` means the call is still blocked in `ser.read()` after
`fuel` reads. -/
def recv_from_arduino (timeoutArg : Option ℚ) (elapsed0 : ℚ)
    (stream : ℕ → ℕ) (fuel : ℕ) : Option (Except Unit (List ℕ)) :=
  let timeout : ℚ := 10
  if elapsed0 < timeout then
    match scanStart stream 0 fuel with
    | none => none
    | some i =>
      match accumBytes stream i 60 [] fuel with
      | none => none
      | some body => some (Except.ok body)
  else some (Except.error ())

/-- The exceptions the `try` blocks of `get_raw`/`get_weight` can raise
and catch (`except (IndexError, ValueError)`, lines 172/198). -/
inductive ParseErr where
  | indexError
  | valueError
deriving DecidableEq, Repr

/-- A Python float value as far as `float(str)` parsing is concerned:
a finite value (modelled exactly by `ℚ`), the two infinities, or NaN. -/
inductive PyFloat where
  | finite (q : ℚ)
  | inf
  | negInf
  | nan
deriving DecidableEq, Repr

def startsWith : List Char → List Char → Bool
  | [], _ => true
  | _ :: _, [] => false
  | a :: as, b :: bs => a == b && startsWith as bs

/-- Python's substring containment `needle in hay` (equivalently
`hay.find(needle) != -1`). -/
def containsSub (needle : List Char) : List Char → Bool
  | [] => startsWith needle []
  | c :: rest => startsWith needle (c :: rest) || containsSub needle rest

/-- The whitespace characters `float(str)` strips. -/
def isPyWs (c : Char) : Bool :=
  c == ' ' || c == '\t' || c == '\n' || c == '\r' || c == '\x0b' || c == '\x0c'

def trimWs (s : List Char) : List Char :=
  ((s.dropWhile isPyWs).reverse.dropWhile isPyWs).reverse

/-- Optional leading sign; `true` means non-negative. -/
def parseSign : List Char → Bool × List Char
  | '+' :: rest => (true, rest)
  | '-' :: rest => (false, rest)
  | s => (true, s)

def digitVal (c : Char) : Option ℕ :=
  if '0' ≤ c ∧ c ≤ '9' then some (c.toNat - '0'.toNat) else none

def takeDigits : List Char → List ℕ × List Char
  | [] => ([], [])
  | c :: rest =>
    match digitVal c with
    | some d =>
      let p := takeDigits rest
      (d :: p.1, p.2)
    | none => ([], c :: rest)

def natOfDigits (ds : List ℕ) : ℕ :=
  ds.foldl (fun a d => 10 * a + d) 0

/-- The optional exponent part `(e|E)[+|-]digits` of a float literal;
fails on any trailing garbage. -/
def applyExp (q : ℚ) : List Char → Option ℚ
  | [] => some q
  | c :: rest =>
    if c == 'e' || c == 'E' then
      let sp := parseSign rest
      let dp := takeDigits sp.2
      if dp.1 = [] ∨ dp.2 ≠ [] then none
      else some (if sp.1 then q * 10 ^ natOfDigits dp.1
        else q / 10 ^ natOfDigits dp.1)
    else none

/-- The mantissa `digits[.digits]` or `.digits` of a float literal;
at least one digit is required. -/
def parseMantissa (s : List Char) : Option (ℚ × List Char) :=
  let d1 := takeDigits s
  match d1.2 with
  | '.' :: r2 =>
    let d2 := takeDigits r2
    if d1.1 = [] ∧ d2.1 = [] then none
    else some ((natOfDigits d1.1 : ℚ) + (natOfDigits d2.1 : ℚ) / 10 ^ d2.1.length,
      d2.2)
  | _ => if d1.1 = [] then none else some ((natOfDigits d1.1 : ℚ), d1.2)

/-- Model of CPython `float(str)`: strip whitespace, optional sign, then
`inf`/`infinity`/`nan` (case-insensitive) or a decimal literal with
optional fraction and exponent.  `none` models the `ValueError` raise.
(Underscore digit separators are not modelled.) -/
def pyFloat (s : List Char) : Option PyFloat :=
  let sp := parseSign (trimWs s)
  let low := sp.2.map Char.toLower
  if low = ['i', 'n', 'f'] ∨ low = ['i', 'n', 'f', 'i', 'n', 'i', 't', 'y'] then
    some (if sp.1 then PyFloat.inf else PyFloat.negInf)
  else if low = ['n', 'a', 'n'] then some PyFloat.nan
  else
    match parseMantissa sp.2 with
    | none => none
    | some p => (applyExp p.1 p.2).map fun v =>
        PyFloat.finite (if sp.1 then v else -v)

/-- Python list indexing `l[i]`, raising `IndexError` out of range. -/
def pyIndex (l : List (List Char)) (i : ℕ) : Except ParseErr (List Char) :=
  match l.get? i with
  | some v => Except.ok v
  | none => Except.error ParseErr.indexError

/-- The body of the `try` blocks in `get_raw`/`get_weight`
(lines 169-171 and 195-197): `msg.split(':')[1]` (IndexError when there
is no `:`), then `float(...split(',')[0])` (ValueError when the field is
not a float literal; `split` always returns at least one field so the
`[0]` never raises). -/
def meas_parse_attempt (msg : List Char) : Except ParseErr PyFloat :=
  match pyIndex (pySplit ':' msg) 1 with
  | Except.error e => Except.error e
  | Except.ok rest =>
    match pyFloat ((pySplit ',' rest).headD []) with
    | none => Except.error ParseErr.valueError
    | some v => Except.ok v

instance {ε α : Type} [DecidableEq ε] [DecidableEq α] :
    DecidableEq (Except ε α) := fun a b =>
  match a, b with
  | .ok x, .ok y => decidable_of_iff (x = y) (by simp)
  | .ok _, .error _ => isFalse (by simp)
  | .error _, .ok _ => isFalse (by simp)
  | .error x, .error y => decidable_of_iff (x = y) (by simp)

def wTag : List Char := ['W', 'e', 'i', 'g', 'h', 't']

def aTag : List Char := ['A', 'D', 'C']

/-- `get_weight` (lines 180-204): keep reading frames until one contains
`Weight`; then try to parse the value, returning it on success and
`None` (here `some none`) when the `try` block raises `IndexError` or
`ValueError`.  The outer `none` means no tagged frame arrived within
`fuel` reads. -/
def get_weight (msgs : ℕ → List Char) : ℕ → ℕ → Option (Option PyFloat)
  | _, 0 => none
  | i, fuel + 1 =>
    if containsSub wTag (msgs i) then
      some (match meas_parse_attempt (msgs i) with
        | Except.ok v => some v
        | Except.error _ => none)
    else get_weight msgs (i + 1) fuel

/-- `get_raw` (lines 155-178): identical to `get_weight` with the `ADC`
tag. -/
def get_raw (msgs : ℕ → List Char) : ℕ → ℕ → Option (Option PyFloat)
  | _, 0 => none
  | i, fuel + 1 =>
    if containsSub aTag (msgs i) then
      some (match meas_parse_attempt (msgs i) with
        | Except.ok v => some v
        | Except.error _ => none)
    else get_raw msgs (i + 1) fuel

/-- The malformed reply `Weight:garbage` (expected tag present, value
not a float literal). -/
def wGarbage : List Char :=
  ['W', 'e', 'i', 'g', 'h', 't', ':', 'g', 'a', 'r', 'b', 'a', 'g', 'e']

/-- The malformed reply `ADC:oops`. -/
def aGarbage : List Char :=
  ['A', 'D', 'C', ':', 'o', 'o', 'p', 's']

/-- The auger calibration table
`powder_config['calibration']['augers'][augerType][powderType]`,
mapping an (auger type, powder type) pair to its grams-per-step
factor. -/
abbrev CalibTable := List ((String × String) × ℚ)

def lookupCalib : CalibTable → String → String → Option ℚ
  | [], _, _ => none
  | (key, v) :: rest, a, p =>
    if key = (a, p) then some v else lookupCalib rest a p

/-- The assignment
`self.powder_config['calibration']['augers'][augerType][powderType] = slope`
(line 483); the most recent binding shadows older ones. -/
def updateCalib (t : CalibTable) (a p : String) (v : ℚ) : CalibTable :=
  ((a, p), v) :: t

def Sx (d : List (ℚ × ℚ)) : ℚ := (d.map Prod.fst).sum

def Sy (d : List (ℚ × ℚ)) : ℚ := (d.map Prod.snd).sum

def Sxx (d : List (ℚ × ℚ)) : ℚ := (d.map fun p => p.1 * p.1).sum

def Sxy (d : List (ℚ × ℚ)) : ℚ := (d.map fun p => p.1 * p.2).sum

/-- Denominator of the degree-1 least-squares normal equations. -/
def fitDenom (d : List (ℚ × ℚ)) : ℚ :=
  (d.length : ℚ) * Sxx d - Sx d * Sx d

/-- Model of `numpy.polyfit(x, y, 1)` over the collected (x, y) pairs:
the closed-form least-squares `(slope, intercept)` solving the normal
equations — the unique minimizer of the summed squared residuals when
`fitDenom d ≠ 0` (see `polyfit1_least_squares`). -/
def polyfit1 (d : List (ℚ × ℚ)) : ℚ × ℚ :=
  let slope := ((d.length : ℚ) * Sxy d - Sx d * Sy d) / fitDenom d
  (slope, (Sy d - slope * Sx d) / (d.length : ℚ))

/-- Python `range(start, stop, step)` for a positive step (the code
calls it with `stepInterval >= 1`; a zero step raises in Python and a
negative one counts down, both outside the modelled calls). -/
def pyRange (start stop step : ℤ) : List ℤ :=
  if 0 < step then
    (List.range ((stop - start + step - 1) / step).toNat).map
      fun i => start + step * i
  else []

/-- The exception raised by reading an undefined attribute. -/
inductive CalErr where
  | attributeError (name : String)
deriving DecidableEq, Repr

/-- The string-valued attributes `__init__` leaves on the controller
(lines 42-48; `DEFAULT_augerType`/`DEFAULT_powderType` from the
constructor defaults, `DEFAULT_direction` and `log_file` from the
configuration/clock — their exact values are irrelevant to the claims,
only their presence).  Crucially, `__init__` defines
`DEFAULT_augerType` and `DEFAULT_powderType` but never
`default_augerType` or `default_powderType`. -/
def initStrAttrs : List (String × String) :=
  [("DEFAULT_augerType", "8mm_base"),
   ("DEFAULT_powderType", "dishwasher_salt"),
   ("DEFAULT_filterType", "EWMA"),
   ("DEFAULT_direction", "dispense"),
   ("log_file", "logs/log.csv")]

/-- Python attribute read `self.<name>`: `AttributeError` when the
attribute was never assigned. -/
def getattrStr (attrs : List (String × String)) (name : String) :
    Except CalErr String :=
  match attrs.lookup name with
  | some v => Except.ok v
  | none => Except.error (CalErr.attributeError name)

/-- Python `x or self.<name>`: a non-empty (truthy) argument
short-circuits; `None` or `""` falls back to the attribute read. -/
def orAttr (x : Option String) (attrs : List (String × String))
    (name : String) : Except CalErr String :=
  match x with
  | some s => if s = "" then getattrStr attrs name else Except.ok s
  | none => getattrStr attrs name

/-- `calibrate_auger_seq` (lines 451-485): resolve `logfile`,
`augerType` (falling back to the undefined `self.default_augerType`,
line 468), `powderType` (undefined `self.default_powderType`, line 469)
and `direction` (`self.DEFAULT_direction`, defined); then enable the
stepper, dispense each step count of `range(minSteps, maxSteps+1,
stepInterval)` (with `runSteps=True`, so the calibration factor passed
to `dispense` is never consulted — 0 here), collect the
operator-entered measured mass for each (the `scale` input), disable
the stepper, fit `numpy.polyfit(steps, measured, 1)` and store the
slope for the resolved (auger, powder) pair.  Returns the outcome, the
device state and the updated calibration table; on an exception the
state and table are returned unchanged (nothing was issued or
mutated).  Log-file writes and config persistence are external
collaborators. -/
def calibrate_auger_seq (attrs : List (String × String))
    (config : CalibTable) (scale : ℤ → ℚ)
    (logfileArg directionArg : Option String)
    (minSteps maxSteps stepInterval : ℤ)
    (augerTypeArg powderTypeArg : Option String) (σ : St) :
    Except CalErr Unit × St × CalibTable :=
  match orAttr logfileArg attrs "log_file" with
  | Except.error e => (Except.error e, σ, config)
  | Except.ok _ =>
    match orAttr augerTypeArg attrs "default_augerType" with
    | Except.error e => (Except.error e, σ, config)
    | Except.ok augerType =>
      match orAttr powderTypeArg attrs "default_powderType" with
      | Except.error e => (Except.error e, σ, config)
      | Except.ok powderType =>
        match orAttr directionArg attrs "DEFAULT_direction" with
        | Except.error e => (Except.error e, σ, config)
        | Except.ok direction =>
          let stepsList := pyRange minSteps (maxSteps + 1) stepInterval
          let σ := enableStepper σ
          let σ := stepsList.foldl
            (fun σ (s : ℤ) => dispense 0 (s : ℚ) direction true σ) σ
          let σ := disableStepper σ
          let data := stepsList.map fun (s : ℤ) => ((s : ℚ), scale s)
          (Except.ok (), σ,
            updateCalib config augerType powderType (polyfit1 data).1)

lemma fillLoop_exit_ge {cal : ℚ} {dir filt : String} {oracle : ℕ → ℚ}
    {th burst : ℚ} {fuel : ℕ} {c c' : ℚ} {σ σ' : St}
    (h : fillLoop cal dir filt oracle th burst fuel c σ = some (c', σ')) :
    th ≤ c' := by
  induction fuel generalizing c σ with
  | zero =>
    by_cases hc : c < th
    · simp [fillLoop, hc] at h
    · simp [fillLoop, hc] at h
      exact h.1 ▸ le_of_not_lt hc
  | succ n ih =>
    by_cases hc : c < th
    · simp only [fillLoop, if_pos hc] at h
      exact ih h
    · simp [fillLoop, hc] at h
      exact h.1 ▸ le_of_not_lt hc

lemma fillLoop_exit_now {cal : ℚ} {dir filt : String} {oracle : ℕ → ℚ}
    {th burst : ℚ} {c : ℚ} (hc : ¬ c < th) (fuel : ℕ) (σ : St) :
    fillLoop cal dir filt oracle th burst fuel c σ = some (c, σ) := by
  cases fuel <;> simp [fillLoop, hc]

lemma fillLoop_stuck {cal : ℚ} {dir filt : String} {oracle : ℕ → ℚ}
    {th burst : ℚ} (hor : ∀ i, oracle i < th) :
    ∀ (fuel : ℕ) (c : ℚ) (σ : St), c < th →
      fillLoop cal dir filt oracle th burst fuel c σ = none := by
  intro fuel
  induction fuel with
  | zero => intro c σ hc; simp [fillLoop, hc]
  | succ n ih =>
    intro c σ hc
    simp only [fillLoop, if_pos hc]
    exact ih _ _ (hor _)

lemma fillLoop_trace {cal : ℚ} {dir filt : String} {oracle : ℕ → ℚ}
    {th burst : ℚ} {fuel : ℕ} {c c' : ℚ} {σ σ' : St}
    (h : fillLoop cal dir filt oracle th burst fuel c σ = some (c', σ')) :
    (∃ n, σ'.cmds = σ.cmds ++ stageBlock burst dir filt n)
    ∧ σ'.isScaleOn = σ.isScaleOn ∧ σ'.isStepperOn = σ.isStepperOn := by
  induction fuel generalizing c σ with
  | zero =>
    by_cases hc : c < th
    · simp [fillLoop, hc] at h
    · simp [fillLoop, hc] at h
      refine ⟨⟨0, ?_⟩, ?_, ?_⟩ <;> simp [← h.2, stageBlock]
  | succ n ih =>
    by_cases hc : c < th
    · simp only [fillLoop, if_pos hc] at h
      obtain ⟨⟨m, hm⟩, hsc, hst⟩ := ih h
      refine ⟨⟨m + 1, ?_⟩, ?_, ?_⟩ <;>
        simp [hm, hsc, hst, dispense, sleep, measWeight, logRow,
          run_command, stageBlock]
    · simp [fillLoop, hc] at h
      refine ⟨⟨0, ?_⟩, ?_, ?_⟩ <;> simp [← h.2, stageBlock]

lemma scaleOff_not_mem_stageBlock {burst : ℚ} {dir filt : String} :
    ∀ n, Cmd.scaleOff ∉ stageBlock burst dir filt n := by
  intro n
  induction n with
  | zero => simp [stageBlock]
  | succ m ih => simp [stageBlock, ih]

lemma purgeLoop_eq_none (cal : ℚ) (dir filt : String) (oracle : ℕ → ℚ) :
    ∀ (fuel : ℕ) (w : ℚ) (σ : St),
      purgeLoop cal dir filt oracle fuel w σ = none := by
  intro fuel
  induction fuel with
  | zero =>
    intro w σ
    have : w ≤ w + 8 / 100 := by linarith
    simp [purgeLoop, this]
  | succ n ih =>
    intro w σ
    have : w ≤ w + 8 / 100 := by linarith
    simp only [purgeLoop, if_pos this]
    exact ih _ _

/-- C7: each of enableStepper/disableStepper/scaleOn/scaleOff issues its
underlying command only on an actual boolean state transition (so two
consecutive `enableStepper` calls from a stepper-off state issue exactly
one `<DispenserOn>`), and `scaleOn` incurs the `settle_time` sleep only
on an actual off-to-on transition. -/
theorem power_transitions_idempotent (σ : St) (t : ℚ) :
    (enableStepper σ).cmds
      = σ.cmds ++ (if σ.isStepperOn then [] else [Cmd.dispenserOn])
    ∧ (disableStepper σ).cmds
      = σ.cmds ++ (if σ.isStepperOn then [Cmd.dispenserOff] else [])
    ∧ (scaleOn t σ).cmds
      = σ.cmds ++ (if σ.isScaleOn then [] else [Cmd.scaleOn])
    ∧ (scaleOff σ).cmds
      = σ.cmds ++ (if σ.isScaleOn then [Cmd.scaleOff] else [])
    ∧ (enableStepper (enableStepper σ)).cmds
      = σ.cmds ++ (if σ.isStepperOn then [] else [Cmd.dispenserOn])
    ∧ (scaleOn t σ).slept = σ.slept + (if σ.isScaleOn then 0 else t) := by
  cases hS : σ.isStepperOn <;> cases hC : σ.isScaleOn <;>
    simp [enableStepper, disableStepper, scaleOn, scaleOff, run_command,
      sleep, hS, hC]

/-- C2: refuted behaviour of the code (the claim describes the intended,
bounded loop).  `purge_dispenser`'s loop guard is the literal
`weight <= weight + 0.08` (line 428), which holds for every weight, so
no run of `purge_dispenser` ever exits its dispensing loop: for every
oracle, every iteration bound and every starting state the model returns
`none` (the loop is still running), never a completed purge. -/
theorem purge_dispenser_never_terminates (cal : ℚ) (dir filt : String)
    (oracle : ℕ → ℚ) (fuel : ℕ) (σ : St) :
    purge_dispenser cal dir filt oracle fuel σ = none := by
  simp [purge_dispenser, purgeLoop_eq_none]

/-- C1: refuted behaviour of the code (the claim describes the intended
threshold).  The FineFill guard is `current_amount < desired_amount * 99`
(line 611), not `* 0.99`: with target 5 g and every measurement reading
4.95 g (= 0.99 · 5, where the claim says the loop exits), the sequence
keeps dispensing 5-step bursts and never completes, for every iteration
bound. -/
theorem fineFill_threshold_bug (cal : ℚ) (dir filt : String) (fuel : ℕ) :
    dispense_powder_seq cal dir filt (fun _ => 99 / 20) 5 fuel initSt = none := by
  have hp1 : (primedPair cal dir filt (fun _ => (99 : ℚ) / 20) 5 initSt).1
      = 99 / 20 := rfl
  have h1 : ¬ ((primedPair cal dir filt (fun _ => (99 : ℚ) / 20) 5 initSt).1
      < (5 : ℚ) * (80 / 100)) := by rw [hp1]; norm_num
  have h2 : ¬ ((primedPair cal dir filt (fun _ => (99 : ℚ) / 20) 5 initSt).1
      < (5 : ℚ) * (97 / 100)) := by rw [hp1]; norm_num
  have h3 : fillLoop cal dir filt (fun _ => (99 : ℚ) / 20) ((5 : ℚ) * 99) 5 fuel
      (primedPair cal dir filt (fun _ => (99 : ℚ) / 20) 5 initSt).1
      (primedPair cal dir filt (fun _ => (99 : ℚ) / 20) 5 initSt).2 = none := by
    apply fillLoop_stuck (fun i => by norm_num)
    rw [hp1]; norm_num
  simp only [dispense_powder_seq, fillLoop_exit_now h1, fillLoop_exit_now h2, h3]

/-- C5: on every completed run of `dispense_powder_seq` from the
post-init state, the priming prefix ends with one `Dispense` of
`desired * 0.50 / cal` steps (the 50% lump converted by dividing the
mass by the grams-per-step factor), and the run then factors through a
400-step-burst loop with threshold `desired * 0.80` followed by a
20-step-burst loop with threshold `desired * 0.97`; each loop exits at
or above its threshold and contributes only fixed-size bursts to the
wire trace. -/
theorem dispense_seq_stage_structure (cal : ℚ) (dir filt : String)
    (oracle : ℕ → ℚ) (d : ℚ) (fuel : ℕ) (out : ℚ × St)
    (h : dispense_powder_seq cal dir filt oracle d fuel initSt = some out) :
    (primedPair cal dir filt oracle d initSt).2.cmds
      = [Cmd.scaleOn, Cmd.tare, Cmd.tare, Cmd.meas 100 filt, Cmd.meas 100 filt,
         Cmd.dispenserOn, Cmd.dispense (d * (50 / 100) / cal) dir]
    ∧ ∃ c₁ σ₁ c₂ σ₂,
        fillLoop cal dir filt oracle (d * (80 / 100)) 400 fuel
          (primedPair cal dir filt oracle d initSt).1
          (primedPair cal dir filt oracle d initSt).2 = some (c₁, σ₁)
        ∧ d * (80 / 100) ≤ c₁
        ∧ (∃ n₁, σ₁.cmds
            = (primedPair cal dir filt oracle d initSt).2.cmds
              ++ stageBlock 400 dir filt n₁)
        ∧ fillLoop cal dir filt oracle (d * (97 / 100)) 20 fuel c₁ σ₁
            = some (c₂, σ₂)
        ∧ d * (97 / 100) ≤ c₂
        ∧ (∃ n₂, σ₂.cmds = σ₁.cmds ++ stageBlock 20 dir filt n₂) := by
  refine ⟨rfl, ?_⟩
  simp only [dispense_powder_seq] at h
  cases h1 : fillLoop cal dir filt oracle (d * (80 / 100)) 400 fuel
      (primedPair cal dir filt oracle d initSt).1
      (primedPair cal dir filt oracle d initSt).2 with
  | none => rw [h1] at h; simp at h
  | some q1 =>
    obtain ⟨c₁, σ₁⟩ := q1
    rw [h1] at h
    dsimp only at h
    cases h2 : fillLoop cal dir filt oracle (d * (97 / 100)) 20 fuel c₁ σ₁ with
    | none => rw [h2] at h; simp at h
    | some q2 =>
      obtain ⟨c₂, σ₂⟩ := q2
      exact ⟨c₁, σ₁, c₂, σ₂, rfl, fillLoop_exit_ge h1, (fillLoop_trace h1).1,
        h2, fillLoop_exit_ge h2, (fillLoop_trace h2).1⟩

/-- C4 (amended): on every run of `dispense_powder_seq` from the
post-init state that completes normally, the stepper is disabled before
returning (a `<DispenserOff>` is on the wire and the tracked stepper
state is off), but the scale is NOT powered off: the tracked scale state
is still on and no `<ScaleOff>` command is ever issued by the
sequence. -/
theorem dispense_seq_done_state (cal : ℚ) (dir filt : String)
    (oracle : ℕ → ℚ) (d : ℚ) (fuel : ℕ) (out : ℚ × St)
    (h : dispense_powder_seq cal dir filt oracle d fuel initSt = some out) :
    out.2.isStepperOn = false ∧ out.2.isScaleOn = true
    ∧ Cmd.dispenserOff ∈ out.2.cmds ∧ Cmd.scaleOff ∉ out.2.cmds := by
  simp only [dispense_powder_seq] at h
  cases h1 : fillLoop cal dir filt oracle (d * (80 / 100)) 400 fuel
      (primedPair cal dir filt oracle d initSt).1
      (primedPair cal dir filt oracle d initSt).2 with
  | none => rw [h1] at h; simp at h
  | some q1 =>
    obtain ⟨c₁, σ₁⟩ := q1
    rw [h1] at h; dsimp only at h
    cases h2 : fillLoop cal dir filt oracle (d * (97 / 100)) 20 fuel c₁ σ₁ with
    | none => rw [h2] at h; simp at h
    | some q2 =>
      obtain ⟨c₂, σ₂⟩ := q2
      rw [h2] at h; dsimp only at h
      cases h3 : fillLoop cal dir filt oracle (d * 99) 5 fuel c₂ σ₂ with
      | none => rw [h3] at h; simp at h
      | some q3 =>
        obtain ⟨c₃, σ₃⟩ := q3
        rw [h3] at h; dsimp only at h
        obtain ⟨⟨n₁, hc1⟩, hsc1, hst1⟩ := fillLoop_trace h1
        obtain ⟨⟨n₂, hc2⟩, hsc2, hst2⟩ := fillLoop_trace h2
        obtain ⟨⟨n₃, hc3⟩, hsc3, hst3⟩ := fillLoop_trace h3
        have hpSc : (primedPair cal dir filt oracle d initSt).2.isScaleOn
            = true := rfl
        have hpSt : (primedPair cal dir filt oracle d initSt).2.isStepperOn
            = true := rfl
        have hpc : (primedPair cal dir filt oracle d initSt).2.cmds
            = [Cmd.scaleOn, Cmd.tare, Cmd.tare, Cmd.meas 100 filt,
               Cmd.meas 100 filt, Cmd.dispenserOn,
               Cmd.dispense (d * (50 / 100) / cal) dir] := rfl
        have hst3' : σ₃.isStepperOn = true := by
          rw [hst3, hst2, hst1, hpSt]
        have hsc3' : σ₃.isScaleOn = true := by
          rw [hsc3, hsc2, hsc1, hpSc]
        injection h with h'
        subst h'
        refine ⟨?_, ?_, ?_, ?_⟩
        · simp [logRow, disableStepper, hst3', run_command]
        · simp [logRow, disableStepper, hst3', run_command, hsc3']
        · simp [logRow, disableStepper, hst3', run_command]
        · simp only [logRow, disableStepper, hst3', if_pos, run_command]
          simp [hc3, hc2, hc1, hpc, scaleOff_not_mem_stageBlock]

/-- C4 counterexample: a run of `dispense_powder_seq` (target 1 g, scale
reading 100 g) that returns normally with the scale still powered on and
no `<ScaleOff>` command ever issued — so it is false that both actuators
are powered down before the operation returns. -/
theorem dispense_seq_scale_left_on :
    dispense_powder_seq 1 "out" "EWMA" (fun _ => 100) 1 0 initSt
      = some (100, c4FinalSt)
    ∧ c4FinalSt.isScaleOn = true ∧ Cmd.scaleOff ∉ c4FinalSt.cmds := by
  refine ⟨?_, rfl, by decide⟩
  norm_num [dispense_powder_seq, primedPair, fillLoop, scaleOn, sleep, tare,
    measWeight, enableStepper, disableStepper, dispense, run_command, logRow,
    initSt, c4FinalSt]

theorem dispense_seq_done_state_witness :
    c4FinalSt.isStepperOn = false ∧ c4FinalSt.isScaleOn = true
    ∧ Cmd.dispenserOff ∈ c4FinalSt.cmds ∧ Cmd.scaleOff ∉ c4FinalSt.cmds :=
  dispense_seq_done_state 1 "out" "EWMA" (fun _ => 100) 1 0 (100, c4FinalSt)
    (by norm_num [dispense_powder_seq, primedPair, fillLoop, scaleOn, sleep,
      tare, measWeight, enableStepper, disableStepper, dispense, run_command,
      logRow, initSt, c4FinalSt])

theorem dispense_seq_stage_structure_witness :
    (primedPair 1 "out" "EWMA" (fun _ => 1000) 10 initSt).2.cmds
      = [Cmd.scaleOn, Cmd.tare, Cmd.tare, Cmd.meas 100 "EWMA",
         Cmd.meas 100 "EWMA", Cmd.dispenserOn,
         Cmd.dispense ((10 : ℚ) * (50 / 100) / 1) "out"]
    ∧ ∃ c₁ σ₁ c₂ σ₂,
        fillLoop 1 "out" "EWMA" (fun _ => 1000) ((10 : ℚ) * (80 / 100)) 400 0
          (primedPair 1 "out" "EWMA" (fun _ => 1000) 10 initSt).1
          (primedPair 1 "out" "EWMA" (fun _ => 1000) 10 initSt).2
          = some (c₁, σ₁)
        ∧ (10 : ℚ) * (80 / 100) ≤ c₁
        ∧ (∃ n₁, σ₁.cmds
            = (primedPair 1 "out" "EWMA" (fun _ => 1000) 10 initSt).2.cmds
              ++ stageBlock 400 "out" "EWMA" n₁)
        ∧ fillLoop 1 "out" "EWMA" (fun _ => 1000) ((10 : ℚ) * (97 / 100)) 20 0
            c₁ σ₁ = some (c₂, σ₂)
        ∧ (10 : ℚ) * (97 / 100) ≤ c₂
        ∧ (∃ n₂, σ₂.cmds = σ₁.cmds ++ stageBlock 20 "out" "EWMA" n₂) :=
  dispense_seq_stage_structure 1 "out" "EWMA" (fun _ => 1000) 10 0
    (1000, c5FinalSt)
    (by norm_num [dispense_powder_seq, primedPair, fillLoop, scaleOn, sleep,
      tare, measWeight, enableStepper, disableStepper, dispense, run_command,
      logRow, initSt, c5FinalSt])

lemma pySplit_sepFree {sep : Char} {f : List Char}
    (h : ∀ c ∈ f, c ≠ sep) : pySplit sep f = [f] := by
  induction f with
  | nil => rfl
  | cons c rest ih =>
    have hc : c ≠ sep := h c (by simp)
    have := ih (fun d hd => h d (by simp [hd]))
    simp [pySplit, hc, this]

lemma pySplit_append_sep {sep : Char} {f t : List Char}
    (h : ∀ c ∈ f, c ≠ sep) :
    pySplit sep (f ++ sep :: t) = f :: pySplit sep t := by
  induction f with
  | nil => simp [pySplit]
  | cons c rest ih =>
    have hc : c ≠ sep := h c (by simp)
    have hr := ih (fun d hd => h d (by simp [hd]))
    simp only [List.cons_append, pySplit, if_neg hc, List.append_eq]
    rw [hr]

lemma pySplit_joinSep {sep : Char} :
    ∀ (fs : List (List Char)) (f : List Char),
      (∀ c ∈ f, c ≠ sep) → (∀ g ∈ fs, ∀ c ∈ g, c ≠ sep) →
      pySplit sep (joinSep sep (f :: fs)) = f :: fs := by
  intro fs
  induction fs with
  | nil => intro f hf _; simpa [joinSep] using pySplit_sepFree hf
  | cons g gs ih =>
    intro f hf hfs
    have hstep : joinSep sep (f :: g :: gs) = f ++ sep :: joinSep sep (g :: gs) :=
      rfl
    rw [hstep, pySplit_append_sep hf,
      ih g (hfs g (by simp)) (fun g' hg' => hfs g' (by simp [hg']))]

lemma mem_joinSep {sep : Char} {c : Char} :
    ∀ {fs : List (List Char)}, c ∈ joinSep sep fs →
      c = sep ∨ ∃ f ∈ fs, c ∈ f := by
  intro fs
  induction fs with
  | nil => simp [joinSep]
  | cons f gs ih =>
    intro hc
    cases gs with
    | nil =>
      simp only [joinSep] at hc
      exact Or.inr ⟨f, by simp, hc⟩
    | cons g gs' =>
      simp only [joinSep, List.mem_append, List.mem_cons] at hc
      rcases hc with hf | rfl | hrest
      · exact Or.inr ⟨f, by simp, hf⟩
      · exact Or.inl rfl
      · rcases ih hrest with h | ⟨f', hf', hcf'⟩
        · exact Or.inl h
        · exact Or.inr ⟨f', by simp [hf'], hcf'⟩

lemma accumFrame_body : ∀ (body tail acc : List Char),
    (∀ c ∈ body, c ≠ '<' ∧ c ≠ '>') →
    accumFrame (body ++ '>' :: tail) acc = some (acc ++ body) := by
  intro body
  induction body with
  | nil => intro tail acc h; simp [accumFrame]
  | cons c rest ih =>
    intro tail acc h
    have hc := h c (by simp)
    have hr := ih tail (acc ++ [c]) (fun d hd => h d (by simp [hd]))
    simp [accumFrame, hc.1, hc.2, hr]

/-- C8 (amended): for every command name and parameter list in which
neither the name nor any parameter contains the delimiter bytes `<`
(60), `>` (62) or the field separator `,` (44), decoding the encoded
frame recovers exactly the same name and parameters. -/
theorem frame_roundtrip (name : List Char) (params : List (List Char))
    (hn : cleanField name = true) (hp : ∀ p ∈ params, cleanField p = true) :
    decodeParse (encodeFrame name params) = some (name, params) := by
  have hclean : ∀ g ∈ name :: params, ∀ c ∈ g,
      c ≠ '<' ∧ c ≠ '>' ∧ c ≠ ',' := by
    intro g hg c hc
    have hcf : cleanField g = true := by
      rcases List.mem_cons.mp hg with rfl | hg'
      · exact hn
      · exact hp g hg'
    have := (List.all_eq_true.mp hcf) c hc
    simpa [and_assoc] using this
  have hbody : ∀ c ∈ joinSep ',' (name :: params), c ≠ '<' ∧ c ≠ '>' := by
    intro c hc
    rcases mem_joinSep hc with rfl | ⟨f, hf, hcf⟩
    · exact ⟨by decide, by decide⟩
    · exact ⟨(hclean f hf c hcf).1, (hclean f hf c hcf).2.1⟩
  have hdec : decodeFrame (encodeFrame name params)
      = some (joinSep ',' (name :: params)) := by
    simpa [encodeFrame, decodeFrame] using
      accumFrame_body (joinSep ',' (name :: params)) [] [] hbody
  have hsplit : pySplit ',' (joinSep ',' (name :: params)) = name :: params :=
    pySplit_joinSep params name
      (fun c hc => (hclean name (by simp) c hc).2.2)
      (fun g hg c hc => (hclean g (by simp [hg]) c hc).2.2)
  simp [decodeParse, hdec, hsplit]

/-- C8 counterexample: the parameter `1,2` contains neither `<` nor `>`
(the only bytes the claim excludes), yet the round trip does not recover
it — the decoded body splits at the embedded comma into two
parameters. -/
theorem frame_roundtrip_comma_counterexample :
    noDelim ['1', ',', '2'] = true
    ∧ decodeParse
        (encodeFrame ['D', 'i', 's', 'p', 'e', 'n', 's', 'e'] [['1', ',', '2']])
      ≠ some (['D', 'i', 's', 'p', 'e', 'n', 's', 'e'], [['1', ',', '2']]) := by
  constructor <;> decide

theorem frame_roundtrip_witness :
    cleanField ['D', 'i', 's', 'p', 'e', 'n', 's', 'e'] = true
    ∧ (∀ p ∈ [['4', '0', '0'], ['o', 'u', 't']], cleanField p = true)
    ∧ decodeParse
        (encodeFrame ['D', 'i', 's', 'p', 'e', 'n', 's', 'e']
          [['4', '0', '0'], ['o', 'u', 't']])
      = some (['D', 'i', 's', 'p', 'e', 'n', 's', 'e'],
          [['4', '0', '0'], ['o', 'u', 't']]) :=
  ⟨by decide, by decide,
    frame_roundtrip ['D', 'i', 's', 'p', 'e', 'n', 's', 'e']
      [['4', '0', '0'], ['o', 'u', 't']] (by decide) (by decide)⟩

lemma scanStart_no_marker {stream : ℕ → ℕ} (hs : ∀ i, stream i ≠ 60) :
    ∀ (fuel i : ℕ), scanStart stream i fuel = none := by
  intro fuel
  induction fuel with
  | zero => intro i; rfl
  | succ n ih => intro i; simp [scanStart, hs i, ih]

/-- C3: refuted behaviour of the code (the claim describes the intended
timeout contract).  (i) The caller-supplied timeout argument is ignored:
the result is the same for any two arguments (line 95 overwrites it with
the literal 10).  (ii) On a stream that never contains the start-marker
byte 60 (here an endless stream of `z` = 122), the call never returns —
after any number of reads it is still blocked, with no timeout outcome.
(iii) The `TimeoutError` raise is unreachable whenever the first guard
check sees less than 10 elapsed seconds, no matter the stream: the only
outcomes are a decoded frame or staying blocked forever. -/
theorem recv_from_arduino_timeout_bug :
    (∀ (t₁ t₂ : Option ℚ) (e : ℚ) (s : ℕ → ℕ) (fuel : ℕ),
      recv_from_arduino t₁ e s fuel = recv_from_arduino t₂ e s fuel)
    ∧ (∀ (t : Option ℚ) (e : ℚ) (fuel : ℕ), e < 10 →
      recv_from_arduino t e (fun _ => 122) fuel = none)
    ∧ (∀ (t : Option ℚ) (e : ℚ) (s : ℕ → ℕ) (fuel : ℕ), e < 10 →
      recv_from_arduino t e s fuel ≠ some (Except.error ())) := by
  refine ⟨fun t₁ t₂ e s fuel => rfl, fun t e fuel he => ?_, fun t e s fuel he => ?_⟩
  · simp [recv_from_arduino, he,
      @scanStart_no_marker (fun _ => 122) (fun i => by norm_num) fuel 0]
  · simp only [recv_from_arduino, if_pos he]
    cases h1 : scanStart s 0 fuel with
    | none => simp
    | some i =>
      dsimp only
      cases h2 : accumBytes s i 60 [] fuel <;> simp [h2]

theorem recv_from_arduino_timeout_bug_witness :
    recv_from_arduino (some 5) 0 (fun _ => 122) 3
      = recv_from_arduino (some 1) 0 (fun _ => 122) 3
    ∧ (0 : ℚ) < 10
    ∧ recv_from_arduino (some 5) 0 (fun _ => 122) 3 = none
    ∧ recv_from_arduino (some 5) 0 (fun _ => 122) 3 ≠ some (Except.error ()) :=
  ⟨recv_from_arduino_timeout_bug.1 (some 5) (some 1) 0 (fun _ => 122) 3,
    by norm_num,
    recv_from_arduino_timeout_bug.2.1 (some 5) 0 3 (by norm_num),
    recv_from_arduino_timeout_bug.2.2 (some 5) 0 (fun _ => 122) 3 (by norm_num)⟩

/-- C6: for every reply whose expected measurement tag (`Weight` for
`get_weight`, `ADC` for `get_raw`) is present but whose value fails to
parse as a float (the `try` block raises `IndexError` or `ValueError`),
the interpreter returns the explicit unavailable outcome `None` — never
a default numeric value, and never an uncaught exception. -/
theorem parse_failure_returns_unavailable (msgs : ℕ → List Char)
    (i fuel : ℕ) (e e' : ParseErr) :
    (containsSub wTag (msgs i) = true →
      meas_parse_attempt (msgs i) = Except.error e →
      get_weight msgs i (fuel + 1) = some none)
    ∧ (containsSub aTag (msgs i) = true →
      meas_parse_attempt (msgs i) = Except.error e' →
      get_raw msgs i (fuel + 1) = some none) := by
  constructor <;> intro h1 h2 <;> simp [get_weight, get_raw, h1, h2]

theorem parse_failure_returns_unavailable_witness :
    containsSub wTag wGarbage = true
    ∧ meas_parse_attempt wGarbage = Except.error ParseErr.valueError
    ∧ get_weight (fun _ => wGarbage) 0 1 = some none
    ∧ containsSub aTag aGarbage = true
    ∧ meas_parse_attempt aGarbage = Except.error ParseErr.valueError
    ∧ get_raw (fun _ => aGarbage) 0 1 = some none :=
  ⟨by decide, by decide,
    (parse_failure_returns_unavailable (fun _ => wGarbage) 0 0
      ParseErr.valueError ParseErr.valueError).1 (by decide) (by decide),
    by decide, by decide,
    (parse_failure_returns_unavailable (fun _ => aGarbage) 0 0
      ParseErr.valueError ParseErr.valueError).2 (by decide) (by decide)⟩

lemma sum_map_mul (k : ℚ) (f : ℚ → ℚ) :
    ∀ l : List ℚ, (l.map fun x => k * f x).sum = k * (l.map f).sum := by
  intro l
  induction l with
  | nil => simp
  | cons x xs ih => simp [ih, mul_add]

lemma polyfit1_slope_of_line (k : ℚ) (xs : List ℚ)
    (hden : fitDenom (xs.map fun x => (x, k * x)) ≠ 0) :
    (polyfit1 (xs.map fun x => (x, k * x))).1 = k := by
  have hSx : Sx (xs.map fun x => (x, k * x)) = xs.sum := by
    simp [Sx, List.map_map, Function.comp_def]
  have hSy : Sy (xs.map fun x => (x, k * x)) = k * Sx (xs.map fun x => (x, k * x)) := by
    rw [hSx]
    simpa [Sy, List.map_map, Function.comp_def] using sum_map_mul k (fun x => x) xs
  have hSxy : Sxy (xs.map fun x => (x, k * x)) = k * Sxx (xs.map fun x => (x, k * x)) := by
    have hfun : (fun x : ℚ => x * (k * x)) = fun x : ℚ => k * (x * x) := by
      funext x; ring
    simp only [Sxy, Sxx, List.map_map, Function.comp_def]
    rw [hfun]
    exact sum_map_mul k (fun x => x * x) xs
  have hnum : ((xs.map fun x => (x, k * x)).length : ℚ)
        * Sxy (xs.map fun x => (x, k * x))
        - Sx (xs.map fun x => (x, k * x)) * Sy (xs.map fun x => (x, k * x))
      = k * fitDenom (xs.map fun x => (x, k * x)) := by
    rw [hSxy, hSy, fitDenom]
    ring
  show (((xs.map fun x => (x, k * x)).length : ℚ)
      * Sxy (xs.map fun x => (x, k * x))
      - Sx (xs.map fun x => (x, k * x)) * Sy (xs.map fun x => (x, k * x)))
      / fitDenom (xs.map fun x => (x, k * x)) = k
  rw [hnum]
  exact mul_div_cancel_right₀ k hden

lemma Sx_cons (p : ℚ × ℚ) (d : List (ℚ × ℚ)) : Sx (p :: d) = p.1 + Sx d := by
  simp [Sx]

lemma Sy_cons (p : ℚ × ℚ) (d : List (ℚ × ℚ)) : Sy (p :: d) = p.2 + Sy d := by
  simp [Sy]

lemma Sxx_cons (p : ℚ × ℚ) (d : List (ℚ × ℚ)) :
    Sxx (p :: d) = p.1 * p.1 + Sxx d := by
  simp [Sxx]

lemma Sxy_cons (p : ℚ × ℚ) (d : List (ℚ × ℚ)) :
    Sxy (p :: d) = p.1 * p.2 + Sxy d := by
  simp [Sxy]

lemma resid_sum (s m : ℚ) :
    ∀ d : List (ℚ × ℚ), (d.map fun p => p.2 - (s * p.1 + m)).sum
      = Sy d - s * Sx d - (d.length : ℚ) * m := by
  intro d
  induction d with
  | nil => simp [Sy, Sx]
  | cons p ps ih =>
    simp only [List.map_cons, List.sum_cons, ih, Sy_cons, Sx_cons,
      List.length_cons]
    push_cast
    ring

lemma residx_sum (s m : ℚ) :
    ∀ d : List (ℚ × ℚ), (d.map fun p => (p.2 - (s * p.1 + m)) * p.1).sum
      = Sxy d - s * Sxx d - m * Sx d := by
  intro d
  induction d with
  | nil => simp [Sxy, Sxx, Sx]
  | cons p ps ih =>
    simp only [List.map_cons, List.sum_cons, ih, Sxy_cons, Sxx_cons, Sx_cons]
    ring

lemma expand_sq (s m a b : ℚ) :
    ∀ d : List (ℚ × ℚ),
      (d.map fun p => (p.2 - (a * p.1 + b)) ^ 2).sum
        = (d.map fun p => (p.2 - (s * p.1 + m)) ^ 2).sum
          + 2 * (s - a) * (d.map fun p => (p.2 - (s * p.1 + m)) * p.1).sum
          + 2 * (m - b) * (d.map fun p => p.2 - (s * p.1 + m)).sum
          + (d.map fun p => ((s - a) * p.1 + (m - b)) ^ 2).sum := by
  intro d
  induction d with
  | nil => simp
  | cons p ps ih =>
    simp only [List.map_cons, List.sum_cons, ih]
    ring

/-- Optimality of the normal-equations solution: whenever the fit is
well-posed (`fitDenom d ≠ 0`), the `(slope, intercept)` returned by
`polyfit1` minimizes the sum of squared residuals over all lines — this
is what justifies modelling `numpy.polyfit(x, y, 1)` by the closed
form. -/
lemma polyfit1_least_squares (d : List (ℚ × ℚ)) (hden : fitDenom d ≠ 0)
    (a b : ℚ) :
    (d.map fun p => (p.2 - ((polyfit1 d).1 * p.1 + (polyfit1 d).2)) ^ 2).sum
      ≤ (d.map fun p => (p.2 - (a * p.1 + b)) ^ 2).sum := by
  have hn : (d.length : ℚ) ≠ 0 := by
    intro h0
    have hlen : d.length = 0 := by exact_mod_cast h0
    have hnil : d = [] := List.length_eq_zero.mp hlen
    apply hden
    simp [hnil, fitDenom, Sx, Sxx]
  have hm : (polyfit1 d).2
      = (Sy d - (polyfit1 d).1 * Sx d) / (d.length : ℚ) := rfl
  have hs : (polyfit1 d).1
      = ((d.length : ℚ) * Sxy d - Sx d * Sy d) / fitDenom d := rfl
  have hN1 : (d.map fun p => p.2 - ((polyfit1 d).1 * p.1 + (polyfit1 d).2)).sum
      = 0 := by
    rw [resid_sum, hm]
    field_simp
  have hN2 : (d.map fun p =>
      (p.2 - ((polyfit1 d).1 * p.1 + (polyfit1 d).2)) * p.1).sum = 0 := by
    rw [residx_sum, hm, hs]
    simp only [fitDenom] at hden ⊢
    field_simp
    ring
  rw [expand_sq (polyfit1 d).1 (polyfit1 d).2 a b d, hN1, hN2]
  have hsq : 0 ≤ (d.map fun p =>
      (((polyfit1 d).1 - a) * p.1 + ((polyfit1 d).2 - b)) ^ 2).sum := by
    apply List.sum_nonneg
    intro x hx
    obtain ⟨p, _, rfl⟩ := List.mem_map.mp hx
    exact sq_nonneg _
  linarith

/-- C9: auger calibration stores the fitted least-squares slope as the
new grams-per-step factor for the (auger, powder) pair; in particular,
for data generated exactly from the line `measured = k * steps` the
stored factor is exactly `k`. -/
theorem auger_calibration_recovers_slope (k : ℚ) (a p : String)
    (config : CalibTable) (minS maxS : ℤ) (σ : St)
    (ha : a ≠ "") (hp : p ≠ "")
    (hden : fitDenom ((pyRange minS (maxS + 1) 1).map
      fun (s : ℤ) => ((s : ℚ), k * (s : ℚ))) ≠ 0) :
    (calibrate_auger_seq initStrAttrs config (fun s => k * (s : ℚ))
        none none minS maxS 1 (some a) (some p) σ).1 = Except.ok ()
    ∧ lookupCalib (calibrate_auger_seq initStrAttrs config
        (fun s => k * (s : ℚ)) none none minS maxS 1 (some a) (some p) σ).2.2
        a p
      = some ((polyfit1 ((pyRange minS (maxS + 1) 1).map
          fun (s : ℤ) => ((s : ℚ), k * (s : ℚ)))).1)
    ∧ lookupCalib (calibrate_auger_seq initStrAttrs config
        (fun s => k * (s : ℚ)) none none minS maxS 1 (some a) (some p) σ).2.2
        a p
      = some k := by
  have hslope : (polyfit1 ((pyRange minS (maxS + 1) 1).map
      fun (s : ℤ) => ((s : ℚ), k * (s : ℚ)))).1 = k := by
    have hdata : ((pyRange minS (maxS + 1) 1).map
          fun (s : ℤ) => ((s : ℚ), k * (s : ℚ)))
        = ((pyRange minS (maxS + 1) 1).map fun (s : ℤ) => (s : ℚ)).map
          fun x => (x, k * x) := by
      simp [List.map_map, Function.comp_def]
    rw [hdata]
    rw [hdata] at hden
    exact polyfit1_slope_of_line k _ hden
  refine ⟨?_, ?_, ?_⟩ <;>
    simp [calibrate_auger_seq, orAttr, getattrStr, initStrAttrs, List.lookup,
      ha, hp, lookupCalib, updateCalib, hslope]

theorem auger_calibration_recovers_slope_witness :
    ("8mm_base" : String) ≠ ""
    ∧ ("salt" : String) ≠ ""
    ∧ fitDenom ((pyRange 1 (2 + 1) 1).map
        fun (s : ℤ) => ((s : ℚ), (3 / 100 : ℚ) * (s : ℚ))) ≠ 0
    ∧ lookupCalib (calibrate_auger_seq initStrAttrs []
        (fun s => (3 / 100 : ℚ) * (s : ℚ)) none none 1 2 1
        (some "8mm_base") (some "salt") initSt).2.2 "8mm_base" "salt"
      = some (3 / 100) := by
  have hden : fitDenom ((pyRange 1 (2 + 1) 1).map
      fun (s : ℤ) => ((s : ℚ), (3 / 100 : ℚ) * (s : ℚ))) ≠ 0 := by
    norm_num [fitDenom, Sx, Sxx, pyRange, List.range, List.range.loop]
  exact ⟨by simp, by simp, hden,
    (auger_calibration_recovers_slope (3 / 100) "8mm_base" "salt" [] 1 2 initSt
      (by simp) (by simp) hden).2.2⟩

/-- C10: a call to `calibrate_auger_seq` that omits the `augerType`
argument fails immediately with `AttributeError` on the undefined
`self.default_augerType` (the constructor only defines
`DEFAULT_augerType`), before any command is issued and with the device
state and calibration table unchanged; likewise a call that supplies
`augerType` but omits `powderType` fails on the undefined
`self.default_powderType`. -/
theorem calibrate_missing_default_attr (config : CalibTable)
    (scale : ℤ → ℚ) (dirArg : Option String) (minS maxS interval : ℤ)
    (pArg : Option String) (σ : St) (a : String) :
    calibrate_auger_seq initStrAttrs config scale none dirArg
        minS maxS interval none pArg σ
      = (Except.error (CalErr.attributeError "default_augerType"), σ, config)
    ∧ (a ≠ "" →
      calibrate_auger_seq initStrAttrs config scale none dirArg
          minS maxS interval (some a) none σ
        = (Except.error (CalErr.attributeError "default_powderType"), σ,
            config)) := by
  constructor
  · simp [calibrate_auger_seq, orAttr, getattrStr, initStrAttrs, List.lookup]
  · intro ha
    simp [calibrate_auger_seq, orAttr, getattrStr, initStrAttrs, List.lookup,
      ha]

theorem calibrate_missing_default_attr_witness :
    calibrate_auger_seq initStrAttrs [] (fun _ => 0) none none 1 1 1
        none none initSt
      = (Except.error (CalErr.attributeError "default_augerType"), initSt, [])
    ∧ ("8mm_base" : String) ≠ ""
    ∧ calibrate_auger_seq initStrAttrs [] (fun _ => 0) none none 1 1 1
        (some "8mm_base") none initSt
      = (Except.error (CalErr.attributeError "default_powderType"), initSt,
          []) :=
  ⟨(calibrate_missing_default_attr [] (fun _ => 0) none 1 1 1 none initSt
      "8mm_base").1,
    by simp,
    (calibrate_missing_default_attr [] (fun _ => 0) none 1 1 1 none initSt
      "8mm_base").2 (by simp)⟩

end PowderDispenser
